import Mathlib

/-!
Verification of the levdwire instance container (`packages/container/src/container.ts`)
and the teardown orchestrator (`source/container/interface.ts`).

JavaScript plain objects (`this._instances`, per-kind instance maps) and `Map`s
(the teardown registry) are modelled as insertion-ordered association lists over
`String` keys: property/entry update keeps the original position, a new key is
appended at the end, and `delete` removes the binding.  This matches the
iteration-order semantics of both JS objects with string keys and `Map`.
-/

/-- Lookup of a key in an insertion-ordered association list
(JS `obj[k]`, `map.get(k)`; `none` models `undefined`). -/
def alistGet {α : Type} : List (String × α) → String → Option α
  | [], _ => none
  | (k', v) :: rest, k => if k' = k then some v else alistGet rest k

/-- Update-or-append write (JS `obj[k] = v`, `map.set(k, v)`): an existing key
keeps its position, a new key is appended at the end. -/
def alistSet {α : Type} : List (String × α) → String → α → List (String × α)
  | [], k, v => [(k, v)]
  | (k', v') :: rest, k, v =>
    if k' = k then (k, v) :: rest else (k', v') :: alistSet rest k v

/-- Deletion of a key (JS `delete obj[k]`, `map.delete(k)`). -/
def alistDel {α : Type} : List (String × α) → String → List (String × α)
  | [], _ => []
  | (k', v) :: rest, k =>
    if k' = k then alistDel rest k else (k', v) :: alistDel rest k

/-- An association list has no duplicate keys (always true of the lists arising
from JS objects / `Map`s). -/
def NodupKeys {α : Type} (l : List (String × α)) : Prop := (l.map Prod.fst).Nodup

instance {α : Type} (l : List (String × α)) : Decidable (NodupKeys l) := by
  unfold NodupKeys; infer_instance

/-- Number of bindings of a key present in the list. -/
def keyCount {α : Type} (l : List (String × α)) (k : String) : Nat :=
  (l.filter (fun p => p.1 == k)).length

@[simp] theorem alistGet_nil {α : Type} (k : String) :
    alistGet ([] : List (String × α)) k = none := rfl

@[simp] theorem alistGet_cons {α : Type} (k' k : String) (v : α) (rest : List (String × α)) :
    alistGet ((k', v) :: rest) k = if k' = k then some v else alistGet rest k := rfl

@[simp] theorem alistGet_alistSet_self {α : Type} (l : List (String × α)) (k : String) (v : α) :
    alistGet (alistSet l k v) k = some v := by
  induction l with
  | nil => simp [alistSet]
  | cons hd tl ih =>
    obtain ⟨k', v'⟩ := hd
    by_cases h : k' = k <;> simp [alistSet, h, ih]

theorem alistGet_alistSet_ne {α : Type} (l : List (String × α)) (k k' : String) (v : α)
    (h : k ≠ k') : alistGet (alistSet l k v) k' = alistGet l k' := by
  induction l with
  | nil => simp [alistSet, h]
  | cons hd tl ih =>
    obtain ⟨k₀, v₀⟩ := hd
    by_cases h₀ : k₀ = k
    · subst h₀; simp [alistSet, h]
    · simp [alistSet, h₀]
      by_cases h₁ : k₀ = k' <;> simp [h₁, ih]

@[simp] theorem alistGet_alistDel_self {α : Type} (l : List (String × α)) (k : String) :
    alistGet (alistDel l k) k = none := by
  induction l with
  | nil => simp [alistDel]
  | cons hd tl ih =>
    obtain ⟨k', v⟩ := hd
    by_cases h : k' = k <;> simp [alistDel, h, ih]

theorem alistGet_alistDel_ne {α : Type} (l : List (String × α)) (k k' : String)
    (h : k ≠ k') : alistGet (alistDel l k) k' = alistGet l k' := by
  induction l with
  | nil => simp [alistDel]
  | cons hd tl ih =>
    obtain ⟨k₀, v₀⟩ := hd
    by_cases h₀ : k₀ = k
    · subst h₀
      have : ¬ k₀ = k' := fun hc => h hc
      simp [alistDel, this, ih]
    · by_cases h₁ : k₀ = k' <;> simp [alistDel, h₀, h₁, Ne.symm h, ih]

theorem alistGet_mem {α : Type} {l : List (String × α)} {k : String} {v : α}
    (h : alistGet l k = some v) : (k, v) ∈ l := by
  induction l with
  | nil => simp [alistGet] at h
  | cons hd tl ih =>
    obtain ⟨k', v'⟩ := hd
    by_cases h₀ : k' = k
    · subst h₀
      simp [alistGet] at h
      simp [h]
    · simp [alistGet, h₀] at h
      exact List.mem_cons_of_mem _ (ih h)

theorem alistGet_eq_none_iff {α : Type} (l : List (String × α)) (k : String) :
    alistGet l k = none ↔ k ∉ l.map Prod.fst := by
  induction l with
  | nil => simp
  | cons hd tl ih =>
    obtain ⟨k₀, v₀⟩ := hd
    by_cases h₀ : k₀ = k
    · subst h₀; simp
    · simp [h₀, ih, Ne.symm h₀]

theorem alistSet_map_fst_of_none {α : Type} {l : List (String × α)} {k : String} (v : α)
    (h : alistGet l k = none) : (alistSet l k v).map Prod.fst = l.map Prod.fst ++ [k] := by
  induction l with
  | nil => simp [alistSet]
  | cons hd tl ih =>
    obtain ⟨k₀, v₀⟩ := hd
    by_cases h₀ : k₀ = k
    · simp [h₀] at h
    · simp [h₀] at h
      simp [alistSet, h₀, ih h]

theorem alistSet_map_fst_of_some {α : Type} {l : List (String × α)} {k : String} (v w : α)
    (h : alistGet l k = some w) : (alistSet l k v).map Prod.fst = l.map Prod.fst := by
  induction l with
  | nil => simp [alistGet] at h
  | cons hd tl ih =>
    obtain ⟨k₀, v₀⟩ := hd
    by_cases h₀ : k₀ = k
    · subst h₀; simp [alistSet]
    · simp [h₀] at h
      simp [alistSet, h₀, ih h]

theorem nodupKeys_alistSet {α : Type} {l : List (String × α)} (k : String) (v : α)
    (h : NodupKeys l) : NodupKeys (alistSet l k v) := by
  unfold NodupKeys at h ⊢
  cases h₀ : alistGet l k with
  | none =>
    have hk : k ∉ l.map Prod.fst := (alistGet_eq_none_iff l k).mp h₀
    rw [alistSet_map_fst_of_none v h₀]
    simp [List.nodup_append, h, hk]
  | some w =>
    rw [alistSet_map_fst_of_some v w h₀]
    exact h

theorem keyCount_eq_zero_of_not_mem {α : Type} {l : List (String × α)} {k : String}
    (h : k ∉ l.map Prod.fst) : keyCount l k = 0 := by
  induction l with
  | nil => simp [keyCount]
  | cons hd tl ih =>
    obtain ⟨k₀, v₀⟩ := hd
    have h₁ : ¬ k₀ = k := by
      intro hc; exact h (by simp [hc])
    have h₂ : k ∉ tl.map Prod.fst := by
      intro hc; exact h (by simp [hc])
    have hb : (k₀ == k) = false := beq_eq_false_iff_ne.mpr h₁
    simp [keyCount, List.filter_cons, hb]
    simpa [keyCount] using ih h₂

theorem keyCount_alistSet_self {α : Type} {l : List (String × α)} (k : String) (v : α)
    (h : NodupKeys l) : keyCount (alistSet l k v) k = 1 := by
  induction l with
  | nil => simp [alistSet, keyCount, List.filter_cons]
  | cons hd tl ih =>
    obtain ⟨k₀, v₀⟩ := hd
    unfold NodupKeys at h
    simp at h
    by_cases h₀ : k₀ = k
    · subst h₀
      have hz : keyCount tl k₀ = 0 :=
        keyCount_eq_zero_of_not_mem (by simpa using h.1)
      simp [alistSet, keyCount, List.filter_cons] at hz ⊢
      exact hz
    · have : keyCount (alistSet tl k v) k = 1 := ih h.2
      simp [alistSet, keyCount, List.filter_cons, h₀] at this ⊢
      exact this

/-!
## The instance container (`packages/container/src/container.ts`)

A component instance is an external collaborator behind `ComponentInterface`;
the container only ever calls its `destroy` and `destroyAndRemove` capabilities.
An instance is therefore modelled by an identity tag together with the observable
behaviour of those two capabilities (whether the call throws when invoked).
-/

/-- A component instance, as seen by the container: an identity plus the
behaviour of its `destroy` / `destroyAndRemove` capabilities. -/
structure Inst where
  tag : Nat
  destroyThrows : Bool := false
  destroyAndRemoveThrows : Bool := false
deriving DecidableEq, Repr

/-- Per-kind instance map (`{ [id: string]: ComponentInterface }`). -/
abbrev InstMap := List (String × Inst)

/-- `Container._instances`: kind name → instance map. -/
abbrev Instances := List (String × InstMap)

/-- Observable side effects of a container operation: console diagnostics and
calls into instance lifecycle capabilities. -/
inductive CEvent where
  | warnEv (msg : String)
  | errorEv (msg : String)
  | instDestroy (i : Inst)
  | instDestroyAndRemove (i : Inst)
deriving DecidableEq, Repr

/-- The outcome of a JS method call: a returned value, or an exception
propagating to the caller. -/
inductive JsResult (α : Type) where
  | ok (value : α)
  | thrown
deriving DecidableEq, Repr

/-- Result of a (possibly state-mutating, possibly throwing) container method. -/
structure OpResult (α : Type) where
  result : JsResult α
  state : Instances
  events : List CEvent
deriving DecidableEq, Repr

/-- `const identifier = id ? id : Utility.generate('id')`: JS string truthiness,
so an omitted id and the empty string both select the generated identifier
(`Utility.generate 'id'`, a random base-36 string, passed in as `genId`). -/
def resolveId (id : Option String) (genId : String) : String :=
  match id with
  | some s => if s = "" then genId else s
  | none => genId

namespace Container

/-- `Container.register(component)`. -/
def register (s : Instances) (component : String) : Bool × Instances × List CEvent :=
  match alistGet s component with
  | some _ => (false, s, [.warnEv ("Component " ++ component ++ " is already registered.")])
  | none => (true, alistSet s component [], [])

/-- `Container.add(component, instance, id?, override = false)`.  When override
is requested over an existing instance, the prior instance's
`destroyAndRemove()` is invoked with no surrounding try/catch, so a throw there
propagates and the replacement on the following line never executes. -/
def add (s : Instances) (component : String) (inst : Inst)
    (id : Option String) (genId : String) (override : Bool) : OpResult Bool :=
  let identifier := resolveId id genId
  match alistGet s component with
  | none =>
    { result := .ok false, state := s,
      events := [.warnEv ("Component " ++ component ++ " does not exist.")] }
  | some m =>
    match alistGet m identifier with
    | some prev =>
      if !override then
        { result := .ok false, state := s,
          events := [.warnEv ("Instance with ID " ++ identifier ++ " already exists.")] }
      else if prev.destroyAndRemoveThrows then
        { result := .thrown, state := s, events := [.instDestroyAndRemove prev] }
      else
        { result := .ok true,
          state := alistSet s component (alistSet m identifier inst),
          events := [.instDestroyAndRemove prev] }
    | none =>
      { result := .ok true,
        state := alistSet s component (alistSet m identifier inst),
        events := [] }

/-- `Container.get(component, id)` (`_checkComponent` / `_checkInstance`
inlined; `none` models the `false` return). -/
def get (s : Instances) (component id : String) : Option Inst × List CEvent :=
  match alistGet s component with
  | none => (none, [.warnEv ("Component " ++ component ++ " does not exist.")])
  | some m =>
    match alistGet m id with
    | none => (none, [.errorEv ("Instance with ID " ++ id ++ " does not exist.")])
    | some inst => (some inst, [])

/-- `Container.getMany(component)`. -/
def getMany (s : Instances) (component : String) : Option InstMap × List CEvent :=
  match alistGet s component with
  | none => (none, [.warnEv ("Component " ++ component ++ " does not exist.")])
  | some m => (some m, [])

/-- `Container.set(component, instance, id)`: strictly an update. -/
def set (s : Instances) (component : String) (inst : Inst) (id : String) :
    Bool × Instances × List CEvent :=
  match alistGet s component with
  | none => (false, s, [.warnEv ("Component " ++ component ++ " does not exist.")])
  | some m =>
    match alistGet m id with
    | none => (false, s, [.errorEv ("Instance with ID " ++ id ++ " does not exist.")])
    | some _ => (true, alistSet s component (alistSet m id inst), [])

/-- `Container.has(component, id)`: pure membership check, no logging. -/
def has (s : Instances) (component id : String) : Bool :=
  match alistGet s component with
  | none => false
  | some m => (alistGet m id).isSome

/-- `Container.remove(component, id)`: bookkeeping deletion only. -/
def remove (s : Instances) (component id : String) : Bool × Instances × List CEvent :=
  match alistGet s component with
  | none => (false, s, [.warnEv ("Component " ++ component ++ " does not exist.")])
  | some m =>
    match alistGet m id with
    | none => (false, s, [.errorEv ("Instance with ID " ++ id ++ " does not exist.")])
    | some _ => (true, alistSet s component (alistDel m id), [])

/-- `Container.destroy(component, id)`: invokes the stored instance's own
`destroy()` capability (again with no try/catch around the call). -/
def destroy (s : Instances) (component id : String) : OpResult Bool :=
  match alistGet s component with
  | none =>
    { result := .ok false, state := s,
      events := [.warnEv ("Component " ++ component ++ " does not exist.")] }
  | some m =>
    match alistGet m id with
    | none =>
      { result := .ok false, state := s,
        events := [.errorEv ("Instance with ID " ++ id ++ " does not exist.")] }
    | some inst =>
      { result := if inst.destroyThrows then .thrown else .ok true,
        state := s, events := [.instDestroy inst] }

/-- `Container.destroyAndRemove(component, id)`: `destroy`, then `remove`,
then `return true`, ignoring both intermediate results. -/
def destroyAndRemove (s : Instances) (component id : String) : OpResult Bool :=
  let d := destroy s component id
  match d.result with
  | .thrown => { result := .thrown, state := d.state, events := d.events }
  | .ok _ =>
    let r := remove d.state component id
    { result := .ok true, state := r.2.1, events := d.events ++ r.2.2 }

/-- `Container.all()`. -/
def all (s : Instances) : Instances := s

end Container

/-- The instance stored at `(component, id)`, if any. -/
def instAt (s : Instances) (component id : String) : Option Inst :=
  (alistGet s component).bind (fun m => alistGet m id)

/-- No instance stored anywhere in the container throws from its lifecycle
capabilities. -/
def NoThrowInstances (s : Instances) : Prop :=
  ∀ p ∈ s, ∀ q ∈ p.2, q.2.destroyThrows = false ∧ q.2.destroyAndRemoveThrows = false

instance (s : Instances) : Decidable (NoThrowInstances s) := by
  unfold NoThrowInstances; infer_instance

/-!
## The component base contract (`packages/components/src/component/component.ts`)

Only the constructor is concrete in the base class; we embed its observable
effect: computing `_id`, initialising the instance fields, and the
`LevdwireContainer.add(component, this, this._id, instanceOptions.override)`
call.  The owning DOM element is represented by an abstract reference plus its
native `id` attribute (the empty string when the attribute is absent).
-/

/-- A DOM element as seen by the component constructor. -/
structure DomElem where
  ref : Nat
  idAttr : String
deriving DecidableEq, Repr

/-- `InstanceOptions` with its defaults (`id: ""`, `override: false`). -/
structure InstanceOptions where
  id : String
  override : Bool
deriving DecidableEq, Repr

/-- `DefaultInstance` from `component.ts`. -/
def DefaultInstance : InstanceOptions := { id := "", override := false }

/-- Shallow right-biased merge `{ ...Default, ...options }`. -/
def mergeOptions (base ext : List (String × String)) : List (String × String) :=
  ext.foldl (fun acc p => alistSet acc p.1 p.2) base

/-- The fields the constructor initialises on `this`. -/
structure ComponentState where
  _id : String
  _element : DomElem
  _events : List (String × List (String × Nat))
  _options : List (String × String)
  _initialized : Bool
deriving DecidableEq, Repr

namespace Component

/-- The base `Component` constructor: `_id = instanceOptions.id ?
instanceOptions.id : element.id` (JS string truthiness), field initialisation,
then registration into the shared container. `Default` in the source is the
empty options object. -/
def construct (component : String) (element : DomElem)
    (options : List (String × String)) (instanceOptions : InstanceOptions)
    (container : Instances) (genId : String) (self : Inst) :
    ComponentState × OpResult Bool :=
  let cid := if instanceOptions.id = "" then element.idAttr else instanceOptions.id
  ({ _id := cid
     _element := element
     _events := []
     _options := mergeOptions [] options
     _initialized := false },
   Container.add container component self (some cid) genId instanceOptions.override)

end Component

/-!
## The teardown orchestrator (`source/container/interface.ts`, `useTeardown`)

A teardown callback is an external collaborator; it is modelled by an identity
tag plus whether invoking it throws.  The per-context registry is a `Map`
(insertion-ordered association list).  Both `push` and `teardown` wrap each
callback invocation in try/catch, logging (in development builds) instead of
propagating, so invocation is recorded as an event and never as an exception.
-/

/-- A teardown callback: identity plus whether invoking it throws. -/
structure Cb where
  tag : Nat
  throws : Bool := false
deriving DecidableEq, Repr

/-- The per-context registry `Map<string, TeardownCallback>`. -/
abbrev Registry := List (String × Cb)

/-- Observable effects of the orchestrator: callback invocations and logged
diagnostics. -/
inductive TDEvent where
  | call (cb : Cb)
  | warnLog (msg : String)
deriving DecidableEq, Repr

/-- The callbacks invoked, in order, within an event trace. -/
def cbCalls (evs : List TDEvent) : List Cb :=
  evs.filterMap (fun e => match e with | .call c => some c | .warnLog _ => none)

/-- `if (alias && key !== alias) continue`: JS string truthiness on the
optional alias. -/
def skipEntry (aliasName : Option String) (key : String) : Bool :=
  match aliasName with
  | some a => decide (¬ a = "") && decide (¬ key = a)
  | none => false

namespace useTeardown

/-- `push(alias, callback)`: a previously registered callback under the same
alias is invoked (inside try/catch, warning log on a throw) before being
replaced by `registry.set(alias, callback)`. -/
def push (registry : Registry) (aliasName : String) (callback : Cb) :
    Registry × List TDEvent :=
  match alistGet registry aliasName with
  | some previousCallback =>
    (alistSet registry aliasName callback,
      .call previousCallback ::
        (if previousCallback.throws
         then [.warnLog ("Failed to teardown alias " ++ aliasName ++ ".")]
         else []))
  | none => (alistSet registry aliasName callback, [])

/-- `teardown(alias?)`: iterates the registry in insertion order; entries not
matching a truthy alias are skipped (`continue`); each processed entry's
callback is invoked inside try/catch (warning log on a throw), the entry is
deleted, and `ran` is set.  Returns `(ran, registry after, events)`. -/
def teardown (registry : Registry) (aliasName : Option String) :
    Bool × Registry × List TDEvent :=
  match registry with
  | [] => (false, [], [])
  | (key, callback) :: rest =>
    if skipEntry aliasName key then
      let r := teardown rest aliasName
      (r.1, (key, callback) :: r.2.1, r.2.2)
    else
      let r := teardown rest aliasName
      (true, r.2.1,
        .call callback ::
          ((if callback.throws
            then [.warnLog ("Teardown failed for alias " ++ key ++ ".")]
            else []) ++ r.2.2))

end useTeardown

/-!
## Delegated dispatch (`attachDelegate`'s listener closure)

The DOM externals are modelled as follows: the native event target is given as
its target-to-root ancestor chain (`[]` models a `null` target);
`target.closest(sel)` is the first element of that chain matching `sel`
(each element carries the set of selectors it matches); `scope.contains(e)`
holds iff `scope` occurs in `e`'s own target-to-root chain (an element contains
itself and its descendants).  The listener body is embedded literally:
delegation resolution, the scope containment check, the
animation/transition `name` filter, then the (try/catch-guarded) handler call.
-/

/-- A DOM element as seen by delegated dispatch: an identity plus the selectors
it matches. -/
structure DElem where
  eid : Nat
  matchedBy : List String
deriving DecidableEq, Repr

/-- The event classes `attachDelegate` discriminates on (`instanceof
AnimationEvent` / `instanceof TransitionEvent`). -/
inductive DEventKind where
  | animationEv (animationName : String)
  | transitionEv (propertyName : String)
  | otherEv
deriving DecidableEq, Repr

/-- A dispatched native event: its class and the target-to-root ancestor chain
of `event.target` (`[]` for a `null` target). -/
structure DEvent where
  kind : DEventKind
  targetChain : List DElem
deriving DecidableEq, Repr

/-- `target.closest(sel)`: the nearest ancestor-or-self matching `sel`,
returned together with its own target-to-root chain. -/
def closestWithChain (sel : String) : List DElem → Option (DElem × List DElem)
  | [] => none
  | e :: rest =>
    if sel ∈ e.matchedBy then some (e, e :: rest) else closestWithChain sel rest

/-- `const resolved = delegate ? target?.closest(delegate) : target`. -/
def resolveDelegate (delegate : Option String) (chain : List DElem) :
    Option (DElem × List DElem) :=
  match delegate with
  | some sel => closestWithChain sel chain
  | none =>
    match chain with
    | [] => none
    | t :: rest => some (t, t :: rest)

/-- What the wrapped listener does with one event. -/
inductive DispatchResult where
  | skippedNoTarget
  | skippedOutOfScope
  | skippedName
  | invoked (resolved : DElem)
deriving DecidableEq, Repr

/-- Does the `options.name` animation guard fire
(`type.startsWith('animation') && event instanceof AnimationEvent &&
event.animationName !== name`)? -/
def animMismatch (evType : String) (kind : DEventKind) (n : String) : Bool :=
  evType.startsWith "animation" &&
    (match kind with
     | .animationEv an => decide (¬ an = n)
     | _ => false)

/-- Does the `options.name` transition guard fire? -/
def transMismatch (evType : String) (kind : DEventKind) (n : String) : Bool :=
  evType.startsWith "transition" &&
    (match kind with
     | .transitionEv pn => decide (¬ pn = n)
     | _ => false)

/-- The listener closure installed by `attachDelegate(scope, type, handler,
options)`: delegation resolution, the `scope.contains(resolved)` check, the
`options.name` filter (JS truthiness: `""` behaves as absent), then the
handler invocation with the resolved target. -/
def attachDelegateListener (scope : DElem) (evType : String)
    (delegate : Option String) (filterName : Option String) (ev : DEvent) :
    DispatchResult :=
  match resolveDelegate delegate ev.targetChain with
  | none => .skippedNoTarget
  | some (resolved, resolvedChain) =>
    if scope ∈ resolvedChain then
      match filterName with
      | some n =>
        if n = "" then .invoked resolved
        else if animMismatch evType ev.kind n then .skippedName
        else if transMismatch evType ev.kind n then .skippedName
        else .invoked resolved
      | none => .invoked resolved
    else .skippedOutOfScope

/-! ## Helper lemmas about the orchestrator -/

@[simp] theorem cbCalls_nil : cbCalls [] = [] := rfl

theorem cbCalls_append (l₁ l₂ : List TDEvent) :
    cbCalls (l₁ ++ l₂) = cbCalls l₁ ++ cbCalls l₂ := by
  simp [cbCalls, List.filterMap_append]

@[simp] theorem skipEntry_none (key : String) : skipEntry none key = false := rfl

theorem skipEntry_some (a key : String) :
    skipEntry (some a) key = (decide (¬ a = "") && decide (¬ key = a)) := rfl

theorem teardown_none_registry (reg : Registry) :
    (useTeardown.teardown reg none).2.1 = [] := by
  induction reg with
  | nil => rfl
  | cons hd tl ih =>
    obtain ⟨k, cb⟩ := hd
    simp [useTeardown.teardown, ih]

theorem teardown_none_calls (reg : Registry) :
    cbCalls (useTeardown.teardown reg none).2.2 = reg.map Prod.snd := by
  induction reg with
  | nil => rfl
  | cons hd tl ih =>
    obtain ⟨k, cb⟩ := hd
    by_cases h : cb.throws <;>
      simp [useTeardown.teardown, cbCalls, List.filterMap_append, h] <;>
      simpa [cbCalls] using ih

theorem teardown_none_ran (reg : Registry) :
    (useTeardown.teardown reg none).1 = !reg.isEmpty := by
  cases reg with
  | nil => rfl
  | cons hd tl =>
    obtain ⟨k, cb⟩ := hd
    simp [useTeardown.teardown]

theorem teardown_some_registry (reg : Registry) (a : String) (h : a ≠ "") :
    (useTeardown.teardown reg (some a)).2.1 = alistDel reg a := by
  induction reg with
  | nil => rfl
  | cons hd tl ih =>
    obtain ⟨k, cb⟩ := hd
    by_cases hk : k = a
    · subst hk
      simp [useTeardown.teardown, skipEntry, h, alistDel, ih]
    · simp [useTeardown.teardown, skipEntry, h, hk, alistDel, Ne.symm hk, ih]

theorem teardown_some_ran (reg : Registry) (a : String) (h : a ≠ "") :
    (useTeardown.teardown reg (some a)).1 = (alistGet reg a).isSome := by
  induction reg with
  | nil => rfl
  | cons hd tl ih =>
    obtain ⟨k, cb⟩ := hd
    by_cases hk : k = a
    · subst hk
      simp [useTeardown.teardown, skipEntry, h]
    · simp [useTeardown.teardown, skipEntry, h, hk, ih]

theorem teardown_some_absent (reg : Registry) (a : String) (h : a ≠ "")
    (habs : alistGet reg a = none) :
    useTeardown.teardown reg (some a) = (false, reg, []) := by
  induction reg with
  | nil => rfl
  | cons hd tl ih =>
    obtain ⟨k, cb⟩ := hd
    by_cases hk : k = a
    · simp [hk] at habs
    · simp [hk] at habs
      simp [useTeardown.teardown, skipEntry, h, hk, ih habs]

theorem teardown_some_calls (reg : Registry) (a : String) (h : a ≠ "")
    (hnd : NodupKeys reg) :
    cbCalls (useTeardown.teardown reg (some a)).2.2 =
      match alistGet reg a with
      | some cb => [cb]
      | none => [] := by
  induction reg with
  | nil => rfl
  | cons hd tl ih =>
    obtain ⟨k, cb⟩ := hd
    unfold NodupKeys at hnd
    simp at hnd
    by_cases hk : k = a
    · subst hk
      have habs : alistGet tl k = none :=
        (alistGet_eq_none_iff tl k).mpr (by simpa using hnd.1)
      by_cases hthrows : cb.throws <;>
        simp [useTeardown.teardown, skipEntry, h, teardown_some_absent tl k h habs,
          cbCalls, hthrows]
    · simpa [useTeardown.teardown, skipEntry, h, hk, cbCalls] using
        ih hnd.2

/-! ## Claims about the container -/

/-- C1: for a registered kind `k`, a (truthy) id, and instances `inst`, `inst2`
with a non-throwing `destroyAndRemove` on `inst`: after `add(k, inst, id)`
succeeds, `add(k, inst2, id, true)` invokes `inst.destroyAndRemove()` exactly
once before replacement, returns true, and a subsequent `get(k, id)` returns
`inst2`. -/
theorem add_override_invokes_prior_destroyAndRemove
    (s : Instances) (m : InstMap) (k id g1 g2 : String) (inst inst2 : Inst)
    (hreg : alistGet s k = some m)
    (hid : id ≠ "")
    (hnothrow : inst.destroyAndRemoveThrows = false)
    (hfirst : (Container.add s k inst (some id) g1 false).result = .ok true) :
    (Container.add (Container.add s k inst (some id) g1 false).state
        k inst2 (some id) g2 true).events = [CEvent.instDestroyAndRemove inst] ∧
    (Container.add (Container.add s k inst (some id) g1 false).state
        k inst2 (some id) g2 true).result = .ok true ∧
    (Container.get
        (Container.add (Container.add s k inst (some id) g1 false).state
          k inst2 (some id) g2 true).state k id).1 = some inst2 := by
  have hrid1 : resolveId (some id) g1 = id := by simp [resolveId, hid]
  have hrid2 : resolveId (some id) g2 = id := by simp [resolveId, hid]
  cases hmid : alistGet m id with
  | some prev =>
    exfalso
    simp [Container.add, hrid1, hreg, hmid] at hfirst
  | none =>
    have hstate1 : (Container.add s k inst (some id) g1 false).state
        = alistSet s k (alistSet m id inst) := by
      simp [Container.add, hrid1, hreg, hmid]
    rw [hstate1]
    have h1 : alistGet (alistSet s k (alistSet m id inst)) k
        = some (alistSet m id inst) := alistGet_alistSet_self ..
    have h2 : alistGet (alistSet m id inst) id = some inst := alistGet_alistSet_self ..
    refine ⟨?_, ?_, ?_⟩ <;>
      simp [Container.add, Container.get, hrid2, h1, h2, hnothrow,
        alistGet_alistSet_self]

/-- Witness for C1: concrete two-step override on a freshly registered kind. -/
theorem add_override_invokes_prior_destroyAndRemove_witness :
    (Container.add (Container.add [("Toast", [])] "Toast" ⟨1, false, false⟩
        (some "t1") "g1" false).state
        "Toast" ⟨2, false, false⟩ (some "t1") "g2" true).events
      = [CEvent.instDestroyAndRemove ⟨1, false, false⟩] ∧
    (Container.add (Container.add [("Toast", [])] "Toast" ⟨1, false, false⟩
        (some "t1") "g1" false).state
        "Toast" ⟨2, false, false⟩ (some "t1") "g2" true).result = .ok true ∧
    (Container.get
        (Container.add (Container.add [("Toast", [])] "Toast" ⟨1, false, false⟩
          (some "t1") "g1" false).state
          "Toast" ⟨2, false, false⟩ (some "t1") "g2" true).state "Toast" "t1").1
      = some ⟨2, false, false⟩ :=
  add_override_invokes_prior_destroyAndRemove [("Toast", [])] [] "Toast" "t1"
    "g1" "g2" ⟨1, false, false⟩ ⟨2, false, false⟩ (by decide) (by decide) rfl
    (by decide)

/-- C2: `destroyAndRemove(k, id)` returns true even when the kind is
unregistered or the instance is absent at `(k, id)` — precisely the situations
in which the underlying `destroy` and `remove` each return false.  (When an
instance is present its `destroy` capability is invoked; if that capability
throws, the exception propagates — hence the benignity hypothesis.) -/
theorem destroyAndRemove_unconditionally_true
    (s : Instances) (k id : String)
    (hnothrow : ∀ i, instAt s k id = some i → i.destroyThrows = false) :
    (Container.destroyAndRemove s k id).result = .ok true ∧
    (instAt s k id = none →
      (Container.destroy s k id).result = .ok false ∧
      (Container.remove s k id).1 = false) := by
  cases hk : alistGet s k with
  | none =>
    exact ⟨by simp [Container.destroyAndRemove, Container.destroy, Container.remove, hk],
      fun _ => by simp [Container.destroy, Container.remove, hk]⟩
  | some m =>
    cases hi : alistGet m id with
    | none =>
      exact ⟨by simp [Container.destroyAndRemove, Container.destroy, Container.remove, hk, hi],
        fun _ => by simp [Container.destroy, Container.remove, hk, hi]⟩
    | some i =>
      have hth : i.destroyThrows = false := hnothrow i (by simp [instAt, hk, hi])
      refine ⟨?_, ?_⟩
      · simp [Container.destroyAndRemove, Container.destroy, Container.remove, hk, hi, hth]
      · intro hcon
        simp [instAt, hk, hi] at hcon

/-- Witness for C2: empty registry — both underlying calls fail, yet
`destroyAndRemove` returns true. -/
theorem destroyAndRemove_unconditionally_true_witness :
    (Container.destroyAndRemove [] "Toast" "x").result = .ok true ∧
    (instAt [] "Toast" "x" = none →
      (Container.destroy [] "Toast" "x").result = .ok false ∧
      (Container.remove [] "Toast" "x").1 = false) :=
  destroyAndRemove_unconditionally_true [] "Toast" "x"
    (fun i h => by simp [instAt, alistGet] at h)

/-- C8: `add` on an unregistered kind returns false and leaves the container
unchanged (the instance mapping for `k` remains absent); `add` of a duplicate
(truthy) id without override returns false, leaves the container unchanged,
and `get(k, id)` still returns the original instance. -/
theorem add_rejects_unregistered_and_duplicate
    (s : Instances) (m : InstMap) (k id genId genId2 : String)
    (inst inst2 : Inst) (idOpt : Option String) (ov : Bool) :
    (alistGet s k = none →
      (Container.add s k inst idOpt genId ov).result = .ok false ∧
      (Container.add s k inst idOpt genId ov).state = s ∧
      alistGet (Container.add s k inst idOpt genId ov).state k = none) ∧
    (alistGet s k = some m → alistGet m id = some inst → id ≠ "" →
      (Container.add s k inst2 (some id) genId2 false).result = .ok false ∧
      (Container.add s k inst2 (some id) genId2 false).state = s ∧
      (Container.get s k id).1 = some inst) := by
  constructor
  · intro hk
    refine ⟨?_, ?_, ?_⟩ <;> simp [Container.add, hk]
  · intro hk hi hid
    have hrid : resolveId (some id) genId2 = id := by simp [resolveId, hid]
    refine ⟨?_, ?_, ?_⟩ <;> simp [Container.add, Container.get, hrid, hk, hi]

/-- Witness for C8: unregistered kind, and a duplicate add on a registered
kind. -/
theorem add_rejects_unregistered_and_duplicate_witness :
    ((Container.add [] "Toast" ⟨1, false, false⟩ (some "t1") "g" false).result
        = .ok false ∧
      (Container.add [] "Toast" ⟨1, false, false⟩ (some "t1") "g" false).state = [] ∧
      alistGet (Container.add [] "Toast" ⟨1, false, false⟩
        (some "t1") "g" false).state "Toast" = none) ∧
    ((Container.add [("Toast", [("t1", ⟨1, false, false⟩)])] "Toast"
        ⟨2, false, false⟩ (some "t1") "g2" false).result = .ok false ∧
      (Container.add [("Toast", [("t1", ⟨1, false, false⟩)])] "Toast"
        ⟨2, false, false⟩ (some "t1") "g2" false).state
        = [("Toast", [("t1", ⟨1, false, false⟩)])] ∧
      (Container.get [("Toast", [("t1", ⟨1, false, false⟩)])] "Toast" "t1").1
        = some ⟨1, false, false⟩) :=
  ⟨(add_rejects_unregistered_and_duplicate [] [] "Toast" "t1" "g" "g"
      ⟨1, false, false⟩ ⟨1, false, false⟩ (some "t1") false).1 (by decide),
   (add_rejects_unregistered_and_duplicate
      [("Toast", [("t1", ⟨1, false, false⟩)])] [("t1", ⟨1, false, false⟩)]
      "Toast" "t1" "g" "g2" ⟨1, false, false⟩ ⟨2, false, false⟩ (some "t1")
      false).2 (by decide) (by decide) (by decide)⟩

/-- C9: `remove` never invokes any instance lifecycle capability; after a
successful `remove(k, id)`, `has(k, id)` is false and `destroy(k, id)` returns
false; `remove` of an absent `(k, id)` returns false and changes nothing. -/
theorem remove_is_bookkeeping_only
    (s : Instances) (k id : String) :
    ((Container.remove s k id).2.2.all
        (fun e => match e with
          | .instDestroy _ => false
          | .instDestroyAndRemove _ => false
          | _ => true) = true) ∧
    ((Container.remove s k id).1 = true →
      Container.has (Container.remove s k id).2.1 k id = false ∧
      (Container.destroy (Container.remove s k id).2.1 k id).result = .ok false) ∧
    (Container.has s k id = false →
      (Container.remove s k id).1 = false ∧ (Container.remove s k id).2.1 = s) := by
  cases hk : alistGet s k with
  | none =>
    refine ⟨by simp [Container.remove, hk], ?_, ?_⟩
    · intro hc
      simp [Container.remove, hk] at hc
    · intro _
      simp [Container.remove, hk]
  | some m =>
    cases hi : alistGet m id with
    | none =>
      refine ⟨by simp [Container.remove, hk, hi], ?_, ?_⟩
      · intro hc
        simp [Container.remove, hk, hi] at hc
      · intro _
        simp [Container.remove, hk, hi]
    | some i =>
      have hstate : (Container.remove s k id).2.1 = alistSet s k (alistDel m id) := by
        simp [Container.remove, hk, hi]
      have hget : alistGet (alistSet s k (alistDel m id)) k = some (alistDel m id) :=
        alistGet_alistSet_self ..
      refine ⟨by simp [Container.remove, hk, hi], ?_, ?_⟩
      · intro _
        rw [hstate]
        constructor
        · simp [Container.has, hget]
        · simp [Container.destroy, hget]
      · intro hc
        simp [Container.has, hk, hi] at hc

/-- Witness for C9: a successful removal, then the absent case. -/
theorem remove_is_bookkeeping_only_witness :
    (Container.has
        (Container.remove [("Toast", [("t1", ⟨1, false, false⟩)])] "Toast" "t1").2.1
        "Toast" "t1" = false ∧
      (Container.destroy
        (Container.remove [("Toast", [("t1", ⟨1, false, false⟩)])] "Toast" "t1").2.1
        "Toast" "t1").result = .ok false) ∧
    ((Container.remove [] "Toast" "x").1 = false ∧
      (Container.remove [] "Toast" "x").2.1 = []) :=
  ⟨(remove_is_bookkeeping_only [("Toast", [("t1", ⟨1, false, false⟩)])]
      "Toast" "t1").2.1 (by decide),
   (remove_is_bookkeeping_only [] "Toast" "x").2.2 (by decide)⟩

/-- C10: passing `""` as the id to `add` is identical to omitting it — the
instance is stored under the generated identifier, never under `""` (the key
`""` is untouched whenever the generated id is nonempty); and a `Component`
constructed from an element with no id attribute keeps `_id = ""` while being
registered under the generated key, which differs from its `_id`. -/
theorem add_empty_id_treated_as_omitted
    (s : Instances) (m : InstMap) (k genId : String) (inst self : Inst)
    (element : DomElem) (opts : List (String × String)) (ov : Bool) :
    (Container.add s k inst (some "") genId ov
        = Container.add s k inst none genId ov) ∧
    (alistGet s k = some m → alistGet m genId = none → genId ≠ "" →
      (Container.add s k inst (some "") genId ov).result = .ok true ∧
      (Container.get (Container.add s k inst (some "") genId ov).state k genId).1
        = some inst ∧
      (Container.get (Container.add s k inst (some "") genId ov).state k "").1
        = alistGet m "") ∧
    (element.idAttr = "" →
      (Component.construct k element opts DefaultInstance s genId self).1._id = "" ∧
      (genId ≠ "" →
        (Component.construct k element opts DefaultInstance s genId self).1._id
          ≠ genId) ∧
      (Component.construct k element opts DefaultInstance s genId self).2
        = Container.add s k self (some "") genId false) := by
  refine ⟨?_, ?_, ?_⟩
  · simp [Container.add, resolveId]
  · intro hk hg hgne
    have hrid : resolveId (some "") genId = genId := by simp [resolveId]
    have hstate : (Container.add s k inst (some "") genId ov).state
        = alistSet s k (alistSet m genId inst) := by
      simp [Container.add, hrid, hk, hg]
    refine ⟨by simp [Container.add, hrid, hk, hg], ?_, ?_⟩
    · rw [hstate]
      simp [Container.get, alistGet_alistSet_self]
    · rw [hstate]
      have hget : alistGet (alistSet s k (alistSet m genId inst)) k
          = some (alistSet m genId inst) := alistGet_alistSet_self ..
      have hempty : alistGet (alistSet m genId inst) "" = alistGet m "" :=
        alistGet_alistSet_ne m genId "" inst hgne
      cases hm : alistGet m "" with
      | none => simp [Container.get, hget, hempty, hm]
      | some i => simp [Container.get, hget, hempty, hm]
  · intro hel
    refine ⟨?_, ?_, ?_⟩
    · simp [Component.construct, DefaultInstance, hel]
    · intro hgne
      simp [Component.construct, DefaultInstance, hel]
      exact fun hc => hgne hc.symm
    · simp [Component.construct, DefaultInstance, hel]

/-- Witness for C10: registered kind, free generated id, element without an id
attribute. -/
theorem add_empty_id_treated_as_omitted_witness :
    ((Container.add [("Toast", [])] "Toast" ⟨1, false, false⟩ (some "") "gen7" false).result
        = .ok true ∧
      (Container.get (Container.add [("Toast", [])] "Toast" ⟨1, false, false⟩
        (some "") "gen7" false).state "Toast" "gen7").1 = some ⟨1, false, false⟩ ∧
      (Container.get (Container.add [("Toast", [])] "Toast" ⟨1, false, false⟩
        (some "") "gen7" false).state "Toast" "").1 = alistGet ([] : InstMap) "") ∧
    ((Component.construct "Toast" ⟨5, ""⟩ [] DefaultInstance [("Toast", [])] "gen7"
        ⟨1, false, false⟩).1._id = "" ∧
      ((("gen7" : String) ≠ "") →
        (Component.construct "Toast" ⟨5, ""⟩ [] DefaultInstance [("Toast", [])] "gen7"
          ⟨1, false, false⟩).1._id ≠ "gen7") ∧
      (Component.construct "Toast" ⟨5, ""⟩ [] DefaultInstance [("Toast", [])] "gen7"
        ⟨1, false, false⟩).2
        = Container.add [("Toast", [])] "Toast" ⟨1, false, false⟩ (some "") "gen7" false) :=
  ⟨(add_empty_id_treated_as_omitted [("Toast", [])] [] "Toast" "gen7"
      ⟨1, false, false⟩ ⟨1, false, false⟩ ⟨5, ""⟩ [] false).2.1
      (by decide) (by decide) (by decide),
   (add_empty_id_treated_as_omitted [("Toast", [])] [] "Toast" "gen7"
      ⟨1, false, false⟩ ⟨1, false, false⟩ ⟨5, ""⟩ [] false).2.2 (by decide)⟩

/-- C3 counterexample: `Container.destroy` calls the stored instance's
`destroy()` with no try/catch, so an instance whose `destroy` capability
throws makes the registry operation propagate the exception to the caller
instead of reporting a boolean — refuting the claim that every failure is
reported only via a false return plus a log. -/
theorem destroy_propagates_instance_exception :
    (Container.destroy [("Toast", [("t1", ⟨1, true, true⟩)])] "Toast" "t1").result
        = .thrown ∧
    (Container.destroyAndRemove [("Toast", [("t1", ⟨1, true, true⟩)])] "Toast" "t1").result
        = .thrown ∧
    (Container.add [("Toast", [("t1", ⟨1, true, true⟩)])] "Toast" ⟨2, false, false⟩
        (some "t1") "g" true).result = .thrown := by
  decide

/-- C3 amended: the registry itself never throws — unknown kinds, missing ids
and duplicates are reported via a false return plus a log — but `destroy`,
`destroyAndRemove` and `add`-with-override invoke stored instance capabilities
without a try/catch, so they propagate exceptions thrown by those capabilities;
whenever no stored instance capability throws, no registry operation
propagates an exception. -/
theorem registry_absorbs_failures_when_instances_benign
    (s : Instances) (k id genId : String) (inst : Inst)
    (idOpt : Option String) (ov : Bool)
    (h : NoThrowInstances s) :
    (Container.add s k inst idOpt genId ov).result ≠ .thrown ∧
    (Container.destroy s k id).result ≠ .thrown ∧
    (Container.destroyAndRemove s k id).result ≠ .thrown := by
  have hdestroy : (Container.destroy s k id).result ≠ .thrown := by
    cases hk : alistGet s k with
    | none => simp [Container.destroy, hk]
    | some m =>
      cases hi : alistGet m id with
      | none => simp [Container.destroy, hk, hi]
      | some i =>
        have hmem := h (k, m) (alistGet_mem hk) (id, i) (alistGet_mem hi)
        have h1 : i.destroyThrows = false := hmem.1
        simp [Container.destroy, hk, hi, h1]
  refine ⟨?_, hdestroy, ?_⟩
  · cases hk : alistGet s k with
    | none => simp [Container.add, hk]
    | some m =>
      cases hi : alistGet m (resolveId idOpt genId) with
      | none => simp [Container.add, hk, hi]
      | some prev =>
        have hmem := h (k, m) (alistGet_mem hk) (resolveId idOpt genId, prev)
          (alistGet_mem hi)
        have h2 : prev.destroyAndRemoveThrows = false := hmem.2
        by_cases hov : ov <;> simp [Container.add, hk, hi, hov, h2]
  · unfold Container.destroyAndRemove
    cases hres : (Container.destroy s k id).result with
    | thrown => exact absurd hres hdestroy
    | ok b => simp [hres]

/-- Witness for C3 amended: a registry holding one benign instance. -/
theorem registry_absorbs_failures_when_instances_benign_witness :
    (Container.add [("Toast", [("t1", ⟨1, false, false⟩)])] "Toast" ⟨2, false, false⟩
        (some "t1") "g" true).result ≠ .thrown ∧
    (Container.destroy [("Toast", [("t1", ⟨1, false, false⟩)])] "Toast" "t1").result
        ≠ .thrown ∧
    (Container.destroyAndRemove [("Toast", [("t1", ⟨1, false, false⟩)])] "Toast"
        "t1").result ≠ .thrown :=
  registry_absorbs_failures_when_instances_benign
    [("Toast", [("t1", ⟨1, false, false⟩)])] "Toast" "t1" "g" ⟨2, false, false⟩
    (some "t1") true (by decide)

/-! ## Claims about the teardown orchestrator -/

/-- C4: `push(alias, cb1)` then `push(alias, cb2)` (distinct callbacks, with
`cb1`, `cb2` not already stored under the alias): `cb1` is invoked exactly
once, synchronously at the second push; afterwards the registry holds exactly
one callback — `cb2` — under the alias; neither push invokes `cb2`, while a
later full `teardown()` does. -/
theorem push_invokes_then_replaces
    (reg : Registry) (aliasName : String) (cb1 cb2 : Cb)
    (hnd : NodupKeys reg)
    (hne : cb1 ≠ cb2)
    (hfresh : ∀ c, alistGet reg aliasName = some c → c ≠ cb1 ∧ c ≠ cb2) :
    cbCalls (useTeardown.push (useTeardown.push reg aliasName cb1).1
        aliasName cb2).2 = [cb1] ∧
    cb1 ∉ cbCalls (useTeardown.push reg aliasName cb1).2 ∧
    cb2 ∉ cbCalls (useTeardown.push reg aliasName cb1).2 ∧
    cb2 ∉ cbCalls (useTeardown.push (useTeardown.push reg aliasName cb1).1
        aliasName cb2).2 ∧
    alistGet (useTeardown.push (useTeardown.push reg aliasName cb1).1
        aliasName cb2).1 aliasName = some cb2 ∧
    keyCount (useTeardown.push (useTeardown.push reg aliasName cb1).1
        aliasName cb2).1 aliasName = 1 ∧
    cb2 ∈ cbCalls (useTeardown.teardown
        (useTeardown.push (useTeardown.push reg aliasName cb1).1 aliasName cb2).1
        none).2.2 := by
  have hstate1 : (useTeardown.push reg aliasName cb1).1
      = alistSet reg aliasName cb1 := by
    unfold useTeardown.push
    cases alistGet reg aliasName <;> rfl
  have hget1 : alistGet (alistSet reg aliasName cb1) aliasName = some cb1 :=
    alistGet_alistSet_self ..
  have hcalls2 : cbCalls (useTeardown.push (useTeardown.push reg aliasName cb1).1
      aliasName cb2).2 = [cb1] := by
    rw [hstate1]
    by_cases ht : cb1.throws <;> simp [useTeardown.push, hget1, cbCalls, ht]
  have hstate2 : (useTeardown.push (useTeardown.push reg aliasName cb1).1
      aliasName cb2).1 = alistSet (alistSet reg aliasName cb1) aliasName cb2 := by
    rw [hstate1]
    unfold useTeardown.push
    rw [hget1]
  have hcalls1 : cbCalls (useTeardown.push reg aliasName cb1).2
      = match alistGet reg aliasName with
        | some prev => [prev]
        | none => [] := by
    unfold useTeardown.push
    cases hp : alistGet reg aliasName with
    | none => rfl
    | some prev =>
      by_cases ht : prev.throws <;> simp [cbCalls, ht]
  refine ⟨hcalls2, ?_, ?_, ?_, ?_, ?_, ?_⟩
  · rw [hcalls1]
    cases hp : alistGet reg aliasName with
    | none => simp
    | some prev => simpa using fun hc => (hfresh prev hp).1 hc.symm
  · rw [hcalls1]
    cases hp : alistGet reg aliasName with
    | none => simp
    | some prev => simpa using fun hc => (hfresh prev hp).2 hc.symm
  · rw [hcalls2]
    simpa using fun hc => hne hc.symm
  · rw [hstate2]
    exact alistGet_alistSet_self ..
  · rw [hstate2]
    exact keyCount_alistSet_self aliasName cb2 (nodupKeys_alistSet aliasName cb1 hnd)
  · rw [teardown_none_calls]
    rw [hstate2]
    exact List.mem_map.mpr
      ⟨(aliasName, cb2), alistGet_mem (alistGet_alistSet_self ..), rfl⟩

/-- Witness for C4: two pushes under `start` in a fresh context. -/
theorem push_invokes_then_replaces_witness :
    cbCalls (useTeardown.push (useTeardown.push [] "start" ⟨1, false⟩).1
        "start" ⟨2, false⟩).2 = [⟨1, false⟩] ∧
    (⟨1, false⟩ : Cb) ∉ cbCalls (useTeardown.push [] "start" ⟨1, false⟩).2 ∧
    (⟨2, false⟩ : Cb) ∉ cbCalls (useTeardown.push [] "start" ⟨1, false⟩).2 ∧
    (⟨2, false⟩ : Cb) ∉ cbCalls (useTeardown.push
        (useTeardown.push [] "start" ⟨1, false⟩).1 "start" ⟨2, false⟩).2 ∧
    alistGet (useTeardown.push (useTeardown.push [] "start" ⟨1, false⟩).1
        "start" ⟨2, false⟩).1 "start" = some ⟨2, false⟩ ∧
    keyCount (useTeardown.push (useTeardown.push [] "start" ⟨1, false⟩).1
        "start" ⟨2, false⟩).1 "start" = 1 ∧
    (⟨2, false⟩ : Cb) ∈ cbCalls (useTeardown.teardown
        (useTeardown.push (useTeardown.push [] "start" ⟨1, false⟩).1
          "start" ⟨2, false⟩).1 none).2.2 :=
  push_invokes_then_replaces [] "start" ⟨1, false⟩ ⟨2, false⟩ (by decide)
    (by decide) (fun c h => by simp [alistGet] at h)

/-- C5 counterexample: the alias guard is `if (alias && key !== alias)`, and the
empty string is falsy in JS, so `teardown("")` behaves like a full `teardown()`:
with `cb1` stored under alias `""` and `cb2` under alias `"x"`, `teardown("")`
invokes the callback stored under a different alias and deletes every entry —
refuting "invokes and deletes only the entry stored under alias". -/
theorem teardown_empty_alias_is_full_teardown :
    cbCalls (useTeardown.teardown [("", ⟨1, false⟩), ("x", ⟨2, false⟩)]
        (some "")).2.2 = [⟨1, false⟩, ⟨2, false⟩] ∧
    (useTeardown.teardown [("", ⟨1, false⟩), ("x", ⟨2, false⟩)] (some "")).2.1
        = [] ∧
    alistGet [("", (⟨1, false⟩ : Cb)), ("x", ⟨2, false⟩)] "" = some ⟨1, false⟩ ∧
    (⟨2, false⟩ : Cb) ≠ ⟨1, false⟩ := by
  decide

/-- C5 amended: for a NONEMPTY alias, `teardown(alias)` invokes and deletes
only the entry stored under that alias, returning true iff it was present;
`teardown()` with no argument (and, by JS falsiness, `teardown("")`) invokes
and deletes every entry, returning true iff the registry was nonempty; a
second consecutive full `teardown()` returns false. -/
theorem teardown_selective_and_full
    (reg : Registry) (a : String) (hnd : NodupKeys reg) (ha : a ≠ "") :
    ((useTeardown.teardown reg (some a)).2.1 = alistDel reg a ∧
     cbCalls (useTeardown.teardown reg (some a)).2.2
        = (match alistGet reg a with
           | some cb => [cb]
           | none => []) ∧
     (useTeardown.teardown reg (some a)).1 = (alistGet reg a).isSome) ∧
    ((useTeardown.teardown reg none).2.1 = [] ∧
     cbCalls (useTeardown.teardown reg none).2.2 = reg.map Prod.snd ∧
     (useTeardown.teardown reg none).1 = !reg.isEmpty ∧
     (useTeardown.teardown (useTeardown.teardown reg none).2.1 none).1 = false) := by
  refine ⟨⟨teardown_some_registry reg a ha, teardown_some_calls reg a ha hnd,
    teardown_some_ran reg a ha⟩,
    teardown_none_registry reg, teardown_none_calls reg, teardown_none_ran reg, ?_⟩
  rw [teardown_none_registry reg]
  rfl

/-- Witness for C5 amended: a registry with two distinct aliases. -/
theorem teardown_selective_and_full_witness :
    ((useTeardown.teardown [("a", ⟨1, false⟩), ("b", ⟨2, false⟩)] (some "a")).2.1
        = alistDel [("a", ⟨1, false⟩), ("b", ⟨2, false⟩)] "a" ∧
     cbCalls (useTeardown.teardown [("a", ⟨1, false⟩), ("b", ⟨2, false⟩)]
        (some "a")).2.2
        = (match alistGet [("a", (⟨1, false⟩ : Cb)), ("b", ⟨2, false⟩)] "a" with
           | some cb => [cb]
           | none => []) ∧
     (useTeardown.teardown [("a", ⟨1, false⟩), ("b", ⟨2, false⟩)] (some "a")).1
        = (alistGet [("a", (⟨1, false⟩ : Cb)), ("b", ⟨2, false⟩)] "a").isSome) ∧
    ((useTeardown.teardown [("a", ⟨1, false⟩), ("b", ⟨2, false⟩)] none).2.1 = [] ∧
     cbCalls (useTeardown.teardown [("a", ⟨1, false⟩), ("b", ⟨2, false⟩)] none).2.2
        = [("a", (⟨1, false⟩ : Cb)), ("b", ⟨2, false⟩)].map Prod.snd ∧
     (useTeardown.teardown [("a", ⟨1, false⟩), ("b", ⟨2, false⟩)] none).1
        = !(([("a", (⟨1, false⟩ : Cb)), ("b", ⟨2, false⟩)] : Registry).isEmpty) ∧
     (useTeardown.teardown
        (useTeardown.teardown [("a", ⟨1, false⟩), ("b", ⟨2, false⟩)] none).2.1
        none).1 = false) :=
  teardown_selective_and_full [("a", ⟨1, false⟩), ("b", ⟨2, false⟩)] "a"
    (by decide) (by decide)

/-- C6: a full `teardown()` invokes every registered callback in registration
order — regardless of which callbacks throw (each invocation is wrapped in
try/catch) — and deletes every processed entry, leaving the registry empty. -/
theorem teardown_ordered_and_isolated (reg : Registry) :
    cbCalls (useTeardown.teardown reg none).2.2 = reg.map Prod.snd ∧
    (useTeardown.teardown reg none).2.1 = [] :=
  ⟨teardown_none_calls reg, teardown_none_registry reg⟩

/-! ## Claim about delegated dispatch -/

theorem closestWithChain_eq_none {sel : String} {chain : List DElem}
    (h : ∀ e ∈ chain, sel ∉ e.matchedBy) : closestWithChain sel chain = none := by
  induction chain with
  | nil => rfl
  | cons e rest ih =>
    have he : sel ∉ e.matchedBy := h e (by simp)
    simp [closestWithChain, he]
    exact ih (fun x hx => h x (by simp [hx]))

/-- C7: a listener installed by `attachDelegate` with a `delegate` selector
never invokes the user handler when no ancestor-or-self of the native event
target matches the selector, and never invokes it when the matched ancestor is
not contained in the listening scope. -/
theorem attachDelegate_never_invokes_outside
    (scope : DElem) (evType sel : String) (filterName : Option String)
    (ev : DEvent) :
    ((∀ e ∈ ev.targetChain, sel ∉ e.matchedBy) →
      ∀ r, attachDelegateListener scope evType (some sel) filterName ev
        ≠ .invoked r) ∧
    (∀ resolved rchain,
      closestWithChain sel ev.targetChain = some (resolved, rchain) →
      scope ∉ rchain →
      ∀ r, attachDelegateListener scope evType (some sel) filterName ev
        ≠ .invoked r) := by
  constructor
  · intro h r
    simp [attachDelegateListener, resolveDelegate, closestWithChain_eq_none h]
  · intro resolved rchain hres hout r
    simp [attachDelegateListener, resolveDelegate, hres, hout]

/-- Witness for C7: a click inside a chain with no selector match, and a
transition event whose matched ancestor lies outside the scope. -/
theorem attachDelegate_never_invokes_outside_witness :
    (attachDelegateListener ⟨0, []⟩ "click" (some ".btn") none
        ⟨.otherEv, [⟨1, []⟩, ⟨2, []⟩]⟩ ≠ .invoked ⟨1, []⟩) ∧
    (attachDelegateListener ⟨0, []⟩ "transitionend" (some ".btn") none
        ⟨.transitionEv "opacity", [⟨1, [".btn"]⟩, ⟨2, []⟩]⟩ ≠ .invoked ⟨1, [".btn"]⟩) :=
  ⟨(attachDelegate_never_invokes_outside ⟨0, []⟩ "click" ".btn" none
      ⟨.otherEv, [⟨1, []⟩, ⟨2, []⟩]⟩).1 (by decide) ⟨1, []⟩,
   (attachDelegate_never_invokes_outside ⟨0, []⟩ "transitionend" ".btn" none
      ⟨.transitionEv "opacity", [⟨1, [".btn"]⟩, ⟨2, []⟩]⟩).2
      ⟨1, [".btn"]⟩ [⟨1, [".btn"]⟩, ⟨2, []⟩] (by decide) (by decide) ⟨1, [".btn"]⟩⟩
